import Mathlib

set_option maxHeartbeats 1000000

namespace Bruniceps

/-!
Verification of the bruniceps sync pipeline (`bruniceps.py`).

The YAML configuration values handled by `_deep_merge_dict` and
`parse_config` are modelled by `PyVal`: dictionaries are insertion-ordered
association lists, matching Python 3.7+ dict semantics.
-/

inductive PyVal where
  | vNone : PyVal
  | vBool : Bool → PyVal
  | vInt : Int → PyVal
  | vStr : String → PyVal
  | vList : List PyVal → PyVal
  | vDict : List (String × PyVal) → PyVal

/-- Python `bool(value)` (truthiness) for the modelled values. -/
def truthy : PyVal → Bool
  | .vNone => false
  | .vBool b => b
  | .vInt n => n != 0
  | .vStr s => !s.isEmpty
  | .vList xs => !xs.isEmpty
  | .vDict es => !es.isEmpty

/-- `d.get(k)` / `k in d` lookup on an insertion-ordered dict. -/
def dictGet {α : Type} (k : String) : List (String × α) → Option α
  | [] => none
  | (k2, v) :: rest => if k2 = k then some v else dictGet k rest

/-- `d[k] = v` on an insertion-ordered dict: replace the existing entry in
place, keeping its position, or append a new entry at the end. -/
def dictSet {α : Type} (k : String) (v : α) : List (String × α) → List (String × α)
  | [] => [(k, v)]
  | (k2, v2) :: rest => if k2 = k then (k, v) :: rest else (k2, v2) :: dictSet k v rest

/-- Contiguous-subsequence test, modelling Python substring membership
`needle in haystack` on strings. -/
def seqContains (needle : List Char) : List Char → Bool
  | [] => needle.isEmpty
  | c :: rest => needle.isPrefixOf (c :: rest) || seqContains needle rest

/-- Python membership test `k in x` where `k` is a string and `x` is an
arbitrary value, as evaluated by the `key not in destination` line of
`_deep_merge_dict` when the destination is not a dict.  Strings test
substring containment, lists test element equality of the string key
(cross-type `==` is always false between a `str` and a non-`str`),
dicts test key membership.  `none` models the `TypeError` raised for
values that support no membership test (`None`, `bool`, `int`). -/
def pyContains : PyVal → String → Option Bool
  | .vStr s, k => some (seqContains k.data s.data)
  | .vList xs, k => some (xs.any (fun x => match x with | .vStr s => s == k | _ => false))
  | .vDict es, k => some (dictGet k es).isSome
  | _, _ => none

/-- Embedding of `_deep_merge_dict` (bruniceps.py lines 183-222).

The first argument is `source.items()`, the second the `destination`
value (a `PyVal`, since the recursive call can reach a non-dict
destination).  The result is `none` when the Python code would raise:

* entering the dict-valued branch with a non-dict destination raises
  `AttributeError` at `destination.setdefault`;
* `key not in destination` on a non-container destination raises
  `TypeError`, and `destination[key] = value` on any non-dict
  destination that does support membership raises `TypeError`.

Note that the code recurses whenever the *source* value is a dict,
without checking the type of the destination's existing value. -/
def deepMergeDict : List (String × PyVal) → PyVal → Option PyVal
  | [], dst => some dst
  | (k, .vDict sub) :: rest, dst =>
    match dst with
    | .vDict des =>
      match dictGet k des with
      | some node =>
        match deepMergeDict sub node with
        | some node2 => deepMergeDict rest (.vDict (dictSet k node2 des))
        | none => none
      | none =>
        match deepMergeDict sub (.vDict []) with
        | some node2 => deepMergeDict rest (.vDict (des ++ [(k, node2)]))
        | none => none
    | _ => none
  | (k, v) :: rest, dst =>
    match dst with
    | .vDict des =>
      match dictGet k des with
      | none => deepMergeDict rest (.vDict (des ++ [(k, v)]))
      | some _ =>
        if truthy v then deepMergeDict rest (.vDict (dictSet k v des))
        else deepMergeDict rest (.vDict des)
    | nd =>
      match pyContains nd k with
      | none => none
      | some true => if truthy v then none else deepMergeDict rest nd
      | some false => none
termination_by src _ => sizeOf src

/-- Modelled from the spec (section 4.1 merge algorithm), for comparison
with `deepMergeDict`: for each key present in the incoming source, if the
existing destination value and incoming value are both mapping-typed,
recurse; else if the key is absent from the destination, copy the incoming
value in; else if the incoming value is truthy, overwrite; else retain the
destination value. -/
def specDeepMerge : List (String × PyVal) → List (String × PyVal) → List (String × PyVal)
  | [], dst => dst
  | (k, .vDict sub) :: rest, dst =>
    match dictGet k dst with
    | some (.vDict dsub) => specDeepMerge rest (dictSet k (.vDict (specDeepMerge sub dsub)) dst)
    | none => specDeepMerge rest (dst ++ [(k, .vDict sub)])
    | some _ =>
      if truthy (.vDict sub) then specDeepMerge rest (dictSet k (.vDict sub) dst)
      else specDeepMerge rest dst
  | (k, v) :: rest, dst =>
    match dictGet k dst with
    | none => specDeepMerge rest (dst ++ [(k, v)])
    | some _ => if truthy v then specDeepMerge rest (dictSet k v dst) else specDeepMerge rest dst
termination_by src _ => sizeOf src

/-- `dupFree ks` holds when the key list has no duplicates; a Python dict
always satisfies this. -/
def dupFree : List String → Bool
  | [] => true
  | k :: rest => !rest.contains k && dupFree rest

mutual

/-- Well-formedness of a modelled Python value: every dict (recursively)
has duplicate-free keys.  Every value reachable from `yaml.safe_load`
satisfies this. -/
def wf : PyVal → Bool
  | .vDict es => dupFree (es.map Prod.fst) && wfEntries es
  | _ => true

def wfEntries : List (String × PyVal) → Bool
  | [] => true
  | (_, v) :: rest => wf v && wfEntries rest

end

/-!
Typed configuration model (the dataclasses of bruniceps.py lines 42-80).
Paths are modelled as plain strings ("/"-joined); `Optional[Path]` fields
become `Option String` (`parse_config` wraps any non-None value in
`Path`, and a `Path` object is always truthy, so `if series.dir:` tests
exactly `isSome`).  The debug-only `_from_config_files` field is omitted.
-/

structure Episode where
  key : String
  source : String
  encoding : String
  format : Option String
  dir : Option String
deriving DecidableEq

structure Series where
  key : String
  title : String
  catalog : String
  dir : Option String
  episodes : List Episode
deriving DecidableEq

structure Catalog where
  key : String
  dir : String
deriving DecidableEq

structure MetaConfig where
  tmp_dir : String
  aria2c_cmd : String
  ffmpeg_cmd : String
  ffprobe_cmd : String
  encoding_profiles : List (String × Option String)
  catalogs : List (String × Catalog)
deriving DecidableEq

structure Config where
  meta : MetaConfig
  series : List Series
deriving DecidableEq

def DEFAULT_ARIA2C_CMD : String := "aria2c"
def DEFAULT_FFMPEG_CMD : String := "ffmpeg"
def DEFAULT_FFPROBE_CMD : String := "ffprobe"

/-- `Path(tempfile.gettempdir()) / "bruniceps"`; the platform temp dir is
modelled as /tmp. -/
def DEFAULT_TMP_DIR : String := "/tmp/bruniceps"

def DEFAULT_ENCODING_PROFILES : List (String × Option String) :=
  [("default", some "-map 0 -c:v libsvtav1 -crf 32 -c:a aac -ac 2 -c:s copy"),
   ("original", none)]

/-- `dict.update(item)` over the encoding-profile table: each entry of the
incoming mapping overwrites the existing entry in place or is appended.
Profile values are restricted to strings and `null`, the declared type
`Dict[str, Optional[str]]`. -/
def profilesUpdate : List (String × Option String) → List (String × PyVal) →
    Except String (List (String × Option String))
  | tbl, [] => .ok tbl
  | tbl, (k, .vStr s) :: rest => profilesUpdate (dictSet k (some s) tbl) rest
  | tbl, (k, .vNone) :: rest => profilesUpdate (dictSet k none tbl) rest
  | _, (_, _) :: _ => .error "TypeError: encoding profile value must be a string or null"

/-- `Episode(**ep)` plus `ensure_episode_dir` (bruniceps.py lines 114-121):
`key` and `source` are required, `encoding` defaults to "default",
`format` and `dir` default to `None`, and any unexpected field raises
`TypeError`.  String-typed fields are restricted to YAML strings, the
declared dataclass types. -/
def parseEpisode (fields : List (String × PyVal)) : Except String Episode := do
  if !fields.all (fun kv => ["key", "source", "encoding", "format", "dir"].contains kv.1) then
    throw "TypeError: unexpected keyword argument"
  let key ← match dictGet "key" fields with
    | some (.vStr s) => .ok s
    | some _ => .error "TypeError: key must be a string"
    | none => .error "TypeError: missing required argument: key"
  let source ← match dictGet "source" fields with
    | some (.vStr s) => .ok s
    | some _ => .error "TypeError: source must be a string"
    | none => .error "TypeError: missing required argument: source"
  let encoding ← match dictGet "encoding" fields with
    | some (.vStr s) => .ok s
    | some _ => .error "TypeError: encoding must be a string"
    | none => .ok "default"
  let format ← match dictGet "format" fields with
    | some (.vStr s) => .ok (some s)
    | some .vNone => .ok none
    | some _ => .error "TypeError: format must be a string or null"
    | none => .ok none
  let dir ← match dictGet "dir" fields with
    | some (.vStr s) => .ok (some s)
    | some .vNone => .ok none
    | some _ => .error "TypeError: Path() argument must be a string"
    | none => .ok none
  return { key := key, source := source, encoding := encoding, format := format, dir := dir }

/-- One entry of the `series` table (bruniceps.py lines 107-128).  Note
that `val[catalog]` is stored as an unresolved string: `parse_config`
never checks it against the catalog table. -/
def parseSeries (key : String) (val : PyVal) : Except String Series := do
  match val with
  | .vDict ves => do
    let episodesRaw ← match dictGet "episodes" ves with
      | some v =>
        if truthy v then
          match v with
          | .vList items => .ok items
          | _ => .error "TypeError: episodes must be a list"
        else .ok []
      | none => .ok []
    let seriesDir ← match dictGet "dir" ves with
      | some (.vStr s) => .ok (some s)
      | some .vNone => .ok none
      | some _ => .error "TypeError: Path() argument must be a string"
      | none => .ok none
    let episodes ← episodesRaw.mapM (fun epv => match epv with
      | .vDict fields => parseEpisode fields
      | _ => .error "TypeError: argument of type is not a mapping")
    let title ← match dictGet "title" ves with
      | some (.vStr s) => .ok s
      | some _ => .error "TypeError: title must be a string"
      | none => .error "KeyError: title"
    let catalog ← match dictGet "catalog" ves with
      | some (.vStr s) => .ok s
      | some _ => .error "TypeError: catalog must be a string"
      | none => .error "KeyError: catalog"
    return { key := key, title := title, catalog := catalog, dir := seriesDir,
             episodes := episodes }
  | _ => .error "AttributeError: no attribute get"

/-- Embedding of `parse_config` (bruniceps.py lines 83-131) over the merged
raw dict.  Fails (models a raised exception) exactly where the Python
code raises; note that it performs no validation of `series.catalog`
references against the catalog table. -/
def parseConfig (raw : List (String × PyVal)) : Except String Config := do
  let metaRaw ← match dictGet "meta" raw with
    | some (.vDict es) => .ok es
    | some _ => .error "AttributeError: no attribute get"
    | none => .ok []
  let catalogsRaw ← match dictGet "catalogs" metaRaw with
    | some (.vDict es) => .ok es
    | some _ => .error "AttributeError: no attribute items"
    | none => .ok []
  let catalogs ← catalogsRaw.mapM (fun kv => match kv.2 with
    | .vDict ves =>
      match dictGet "dir" ves with
      | some (.vStr d) => .ok (kv.1, Catalog.mk kv.1 d)
      | some _ => .error "TypeError: Path() argument must be a string"
      | none => .error "KeyError: dir"
    | _ => .error "TypeError: value is not subscriptable")
  let profileItems ← match dictGet "encoding_profiles" metaRaw with
    | some (.vList items) => items.mapM (fun it => match it with
        | .vDict es => .ok es
        | _ => .error "TypeError: update argument must be a mapping")
    | some _ => .error "TypeError: encoding_profiles must be a list"
    | none => .ok []
  let encodingProfiles ← profileItems.foldlM profilesUpdate DEFAULT_ENCODING_PROFILES
  let tmpDirVal := (dictGet "tmp_dir" metaRaw).getD .vNone
  let tmpDir ← if truthy tmpDirVal then
      match tmpDirVal with
      | .vStr s => .ok s
      | _ => .error "TypeError: Path() argument must be a string"
    else .ok DEFAULT_TMP_DIR
  let aria2c ← match dictGet "aria2c_cmd" metaRaw with
    | some (.vStr s) => .ok s
    | some _ => .error "TypeError: command must be a string"
    | none => .ok DEFAULT_ARIA2C_CMD
  let ffmpeg ← match dictGet "ffmpeg_cmd" metaRaw with
    | some (.vStr s) => .ok s
    | some _ => .error "TypeError: command must be a string"
    | none => .ok DEFAULT_FFMPEG_CMD
  let ffprobe ← match dictGet "ffprobe_cmd" metaRaw with
    | some (.vStr s) => .ok s
    | some _ => .error "TypeError: command must be a string"
    | none => .ok DEFAULT_FFPROBE_CMD
  let seriesRaw ← match dictGet "series" raw with
    | some (.vDict es) => .ok es
    | some _ => .error "AttributeError: no attribute items"
    | none => .ok []
  let seriesList ← seriesRaw.mapM (fun kv => parseSeries kv.1 kv.2)
  return { meta := { tmp_dir := tmpDir, aria2c_cmd := aria2c, ffmpeg_cmd := ffmpeg,
                     ffprobe_cmd := ffprobe, encoding_profiles := encodingProfiles,
                     catalogs := catalogs },
           series := seriesList }

/-!
Per-episode pipeline (`process_episode`, bruniceps.py lines 407-474) and
batch runner (`sync`, lines 477-498).  External collaborators (aria2c,
ffmpeg, ffprobe, the filesystem) are modelled by an `Oracle` supplying
the outcome of each effectful step; the pipeline records the side effects
it performs as a trace of `Eff` values.
-/

/-- `path / component` concatenation. -/
def pjoin (a b : String) : String := a ++ "/" ++ b

/-- `pathlib` stem/suffix split of a file name: the suffix starts at the
last dot, provided that dot is neither the first nor the last character
(so hidden files and trailing dots yield an empty suffix). -/
def stemSuffix (name : String) : String × String :=
  let cs := name.data
  let afterDot := (cs.reverse.takeWhile (fun c => c != '.')).length
  if afterDot = cs.length || afterDot = 0 || cs.length - afterDot - 1 = 0 then (name, "")
  else (String.mk (cs.take (cs.length - afterDot - 1)), String.mk (cs.drop (cs.length - afterDot - 1)))

/-- `Path(name).stem`. -/
def pathStem (name : String) : String := (stemSuffix name).1

/-- `Path(name).suffix.lstrip(".")`. -/
def suffixNoDot (name : String) : String := ((stemSuffix name).2).drop 1

/-- Python `x if x else y` on an optional string (`ep.format if ep.format
else ...`): an empty string is falsy. -/
def pyOrStr (a : Option String) (b : String) : String :=
  match a with
  | some s => if s = "" then b else s
  | none => b

/-- `file_exists_with_basename` (bruniceps.py lines 267-268), over the
list of stems of the regular files in the directory. -/
def file_exists_with_basename (stems : List String) (baseName : String) : Bool :=
  stems.any (fun s => s == baseName)

/-- `meta.encoding_profiles.get(ep.encoding)`: a missing key and a key
stored with value `None` both yield `None`. -/
def profilesGet (tbl : List (String × Option String)) (k : String) : Option String :=
  match dictGet k tbl with
  | some v => v
  | none => none

/-- abs of a rational, as Python `abs`. -/
def ratAbs (x : Rat) : Rat := if x < 0 then -x else x

/-- Python `max` of two rationals. -/
def ratMax (a b : Rat) : Rat := if a ≤ b then b else a

/-- The tolerance comparison of `verify_encoded_video_duration`
(bruniceps.py lines 360-373), on the two probed durations in seconds:
raises `ValueError` when `abs(src_duration - dst_duration)` exceeds
`max(5.0, 0.02 * src_duration)`.  Durations are modelled as exact
rationals; at every input used here the float comparison of the source
and the rational comparison agree. -/
def verify_encoded_video_duration (srcDuration dstDuration : Rat) : Except String Unit :=
  if ratAbs (srcDuration - dstDuration) > ratMax 5.0 (0.02 * srcDuration) then
    .error "ValueError: Bad encoded video: Duration mismatch"
  else .ok ()

/-- Side effects performed by the pipeline. -/
inductive Eff where
  | ensureDir : String → Eff
  | aria2c : String → String → String → Eff
  | probe : String → String → Eff
  | ffmpeg : String → String → String → String → Eff
  | copyFile : String → String → Eff
  | rmtree : String → Eff
deriving DecidableEq

/-- Terminal state of one episode task.  `failed msg` models an exception
propagating out of `process_episode`; `msg` stands for the rendered
`type(e).__name__: e` string recorded by `sync`. -/
inductive Outcome where
  | done : Outcome
  | skipped : Outcome
  | failed : String → Outcome
deriving DecidableEq

structure EpResult where
  outcome : Outcome
  trace : List Eff
deriving DecidableEq

/-- Outcomes of the external collaborators and filesystem for one task:
the stems of the files already in the resolved target directory, and the
result of each fallible external step.  `download` yields the name of the
most-recently-modified file in the download directory (or the error,
including the empty-directory `FileNotFoundError`). -/
structure Oracle where
  targetStems : List String
  download : Except String String
  verifyDownloaded : Except String Unit
  encode : Except String Unit
  verifyEncoded : Except String Unit
  srcDuration : Except String Rat
  dstDuration : Except String Rat
  place : Except String Unit
  filesIdentical : Bool

/-- Target-directory resolution (bruniceps.py lines 414-418):
`{catalog.dir}/{series.title}`, overridden by `series.dir`, overridden by
`ep.dir`. -/
def resolveTargetDir (ep : Episode) (series : Series) (catalog : Catalog) : String :=
  let targetDir := pjoin catalog.dir series.title
  let targetDir := match series.dir with | some d => d | none => targetDir
  match ep.dir with | some d => d | none => targetDir

/-- `encode_video` (bruniceps.py lines 290-300): falsy encoding args
(`None` or an empty string) degrade to `shutil.copy`, otherwise ffmpeg is
invoked. -/
def encodeEffect (input output : String) (args : Option String) (cmd : String) : Eff :=
  match args with
  | some a => if a = "" then Eff.copyFile input output else Eff.ffmpeg input output a cmd
  | none => Eff.copyFile input output

/-- Embedding of `process_episode` (bruniceps.py lines 407-474).  The
steps run in source order; the first failing step ends the task with
`Outcome.failed` and no further effects — in particular `clear_task_dir`
(lines 400-404, the `Eff.rmtree` effect) is reached only on the
all-successful path, since the function has no try/finally. -/
def processEpisode (ep : Episode) (series : Series) (catalog : Catalog)
    (meta : MetaConfig) (o : Oracle) : EpResult :=
  let taskId := series.key ++ "-" ++ ep.key
  let baseFilename := series.title ++ " " ++ ep.key
  let targetDir := resolveTargetDir ep series catalog
  let trace0 := [Eff.ensureDir targetDir]
  if file_exists_with_basename o.targetStems baseFilename then
    { outcome := .skipped, trace := trace0 }
  else
    let taskDir := pjoin meta.tmp_dir taskId
    let downloadedDir := pjoin taskDir "downloaded"
    let trace1 := trace0 ++ [Eff.ensureDir downloadedDir,
                             Eff.aria2c downloadedDir ep.source meta.aria2c_cmd]
    match o.download with
    | .error e => { outcome := .failed e, trace := trace1 }
    | .ok downloadedName =>
      let downloadedFile := pjoin downloadedDir downloadedName
      let trace2 := trace1 ++ [Eff.probe downloadedFile meta.ffprobe_cmd]
      match o.verifyDownloaded with
      | .error e => { outcome := .failed e, trace := trace2 }
      | .ok _ =>
        let encodedDir := pjoin taskDir "encoded"
        let ext := pyOrStr ep.format (suffixNoDot downloadedName)
        let encodedFile := pjoin encodedDir (pathStem downloadedName ++ "_encoded." ++ ext)
        let encodingArgs := profilesGet meta.encoding_profiles ep.encoding
        let trace3 := trace2 ++ [Eff.ensureDir encodedDir,
                                 encodeEffect downloadedFile encodedFile encodingArgs meta.ffmpeg_cmd]
        match o.encode with
        | .error e => { outcome := .failed e, trace := trace3 }
        | .ok _ =>
          let trace4 := trace3 ++ [Eff.probe encodedFile meta.ffprobe_cmd]
          match o.verifyEncoded with
          | .error e => { outcome := .failed e, trace := trace4 }
          | .ok _ =>
            let trace5 := trace4 ++ [Eff.probe downloadedFile meta.ffprobe_cmd,
                                     Eff.probe encodedFile meta.ffprobe_cmd]
            match o.srcDuration with
            | .error e => { outcome := .failed e, trace := trace5 }
            | .ok srcd =>
              match o.dstDuration with
              | .error e => { outcome := .failed e, trace := trace5 }
              | .ok dstd =>
                match verify_encoded_video_duration srcd dstd with
                | .error e => { outcome := .failed e, trace := trace5 }
                | .ok _ =>
                  let targetFile := pjoin targetDir (baseFilename ++ "." ++ ext)
                  let trace6 := trace5 ++ [Eff.copyFile encodedFile targetFile]
                  match o.place with
                  | .error e => { outcome := .failed e, trace := trace6 }
                  | .ok _ =>
                    if o.filesIdentical then
                      { outcome := .done, trace := trace6 ++ [Eff.rmtree taskDir] }
                    else
                      { outcome := .failed "ValueError: Copied dst is not identical to src",
                        trace := trace6 }

def isDownloadEff : Eff → Bool
  | .aria2c _ _ _ => true
  | _ => false

def isEncoderEff : Eff → Bool
  | .ffmpeg _ _ _ _ => true
  | _ => false

def isRmtreeEff : Eff → Bool
  | .rmtree _ => true
  | _ => false

/-- The error key `catalog.key/series.key/ep.key` used by `sync`. -/
def taskErrKey (cat : Catalog) (series : Series) (ep : Episode) : String :=
  cat.key ++ "/" ++ series.key ++ "/" ++ ep.key

/-- One series' episode loop inside `sync` (bruniceps.py lines 486-491):
every episode is attempted in order; a failed outcome (a caught
exception) is recorded keyed by `catalog/series/episode` and iteration
continues.  Returns the recorded errors and the attempted task ids, in
order.  The per-task oracle is looked up by task id. -/
def runEpisodes (series : Series) (cat : Catalog) (meta : MetaConfig)
    (o : String → Oracle) : List Episode → List (String × String) × List String
  | [] => ([], [])
  | ep :: rest =>
    let tid := series.key ++ "-" ++ ep.key
    let r := processEpisode ep series cat meta (o tid)
    let acc := runEpisodes series cat meta o rest
    match r.outcome with
    | .failed msg => ((taskErrKey cat series ep, msg) :: acc.1, tid :: acc.2)
    | _ => (acc.1, tid :: acc.2)

/-- The series loop of `sync` (bruniceps.py lines 484-491).  The catalog
lookup `config.meta.catalogs[series.catalog]` sits outside the per-episode
try/except: a missing key raises `KeyError` out of `sync`, which `main`
does not catch (the run dies with the interpreter's nonzero exit), and
the episodes of the remaining series are never attempted. -/
def syncGo (meta : MetaConfig) (o : String → Oracle) :
    List Series → Except String (List (String × String)) × List String
  | [] => (.ok [], [])
  | s :: rest =>
    match dictGet s.catalog meta.catalogs with
    | none => (.error ("KeyError: " ++ s.catalog), [])
    | some cat =>
      let sr := runEpisodes s cat meta o s.episodes
      match syncGo meta o rest with
      | (.ok errs2, tids2) => (.ok (sr.1 ++ errs2), sr.2 ++ tids2)
      | (.error e, tids2) => (.error e, sr.2 ++ tids2)

/-- Embedding of `sync` (bruniceps.py lines 477-498): the first component
is the failure map (or the uncaught exception), the second the task ids
whose pipeline was invoked. -/
def sync (config : Config) (o : String → Oracle) :
    Except String (List (String × String)) × List String :=
  syncGo config.meta o config.series

/-- Exit status of `main` running the `sync` subcommand: `sync` returns
`None` regardless of its failure map, so `main` falls off the end and the
process exits 0; only an uncaught exception (e.g. the catalog `KeyError`)
produces a nonzero exit. -/
def mainExitCode (config : Config) (o : String → Oracle) : Nat :=
  match (sync config o).1 with
  | .ok _ => 0
  | .error _ => 1

/-- The failure map `sync` is specified to produce: one entry per episode
whose pipeline fails, keyed `catalog/series/episode`, in batch order. -/
def failuresFor (meta : MetaConfig) (o : String → Oracle) (sers : List Series) :
    List (String × String) :=
  (sers.map (fun s =>
    match dictGet s.catalog meta.catalogs with
    | none => []
    | some cat => s.episodes.filterMap (fun ep =>
        match (processEpisode ep s cat meta (o (s.key ++ "-" ++ ep.key))).outcome with
        | .failed msg => some (taskErrKey cat s ep, msg)
        | _ => none))).flatten

def failures (config : Config) (o : String → Oracle) : List (String × String) :=
  failuresFor config.meta o config.series

/-- All task ids of the batch, in order. -/
def allTaskIds (sers : List Series) : List String :=
  (sers.map (fun s => s.episodes.map (fun ep => s.key ++ "-" ++ ep.key))).flatten

/-- Tests whether a value is mapping-typed (`isinstance(value, dict)`). -/
def isDictVal : PyVal → Bool
  | .vDict _ => true
  | _ => false

/-!
Concrete data used by the witnesses and counterexamples.
-/

/-- A configuration tree in the shape of the `_deep_merge_dict` docstring
example. -/
def mergeExampleA : List (String × PyVal) :=
  [("domain", .vDict [("devices", .vInt 0)]),
   ("volumes", .vList [.vInt 1, .vInt 2, .vInt 3]),
   ("network", .vDict [])]

/-- Oracle for a run in which every external step succeeds. -/
def oracleAllOk : Oracle :=
  { targetStems := [], download := .ok "file.mkv", verifyDownloaded := .ok (),
    encode := .ok (), verifyEncoded := .ok (), srcDuration := .ok 100,
    dstDuration := .ok 100, place := .ok (), filesIdentical := true }

/-- Oracle whose downloader invocation fails. -/
def oracleFailDownload : Oracle := { oracleAllOk with download := .error "RuntimeError: boom" }

/-- Oracle whose post-download probe fails (failure after the download step). -/
def oracleFailVerify : Oracle :=
  { oracleAllOk with verifyDownloaded := .error "ValueError: Error verifying video" }

def epT : Episode :=
  { key := "e1", source := "http://example.com/1", encoding := "default", format := none,
    dir := none }

def ep2 : Episode :=
  { key := "e2", source := "http://example.com/2", encoding := "default", format := none,
    dir := none }

def ep3 : Episode :=
  { key := "e3", source := "http://example.com/3", encoding := "default", format := none,
    dir := none }

def serT : Series := { key := "s", title := "Show", catalog := "tv", dir := none, episodes := [epT] }

def ser3 : Series :=
  { key := "s", title := "Show", catalog := "tv", dir := none, episodes := [epT, ep2, ep3] }

def catT : Catalog := { key := "tv", dir := "/media/tv" }

def metaT : MetaConfig :=
  { tmp_dir := "/tmp/bruniceps", aria2c_cmd := "aria2c", ffmpeg_cmd := "ffmpeg",
    ffprobe_cmd := "ffprobe", encoding_profiles := DEFAULT_ENCODING_PROFILES,
    catalogs := [("tv", catT)] }

def cfgT : Config := { meta := metaT, series := [serT] }

def cfg5 : Config := { meta := metaT, series := [ser3] }

/-- Oracle map making exactly the second episode (task id s-e2) fail. -/
def o5 : String → Oracle := fun tid => if tid = "s-e2" then oracleFailDownload else oracleAllOk

/-- Oracle whose target directory already holds a file with stem "Show e1". -/
def oracleSkipT : Oracle := { oracleAllOk with targetStems := ["Show e1"] }

/-- Raw merged configuration whose second series references the unknown
catalog key "nope". -/
def rawC3 : List (String × PyVal) :=
  [("meta", .vDict [("catalogs", .vDict [("tv", .vDict [("dir", .vStr "/media/tv")])])]),
   ("series", .vDict [
     ("s1", .vDict [("title", .vStr "Show One"), ("catalog", .vStr "tv"),
       ("episodes", .vList [.vDict [("key", .vStr "E01"),
                                    ("source", .vStr "http://example.com/1")]])]),
     ("s2", .vDict [("title", .vStr "Show Two"), ("catalog", .vStr "nope"),
       ("episodes", .vList [.vDict [("key", .vStr "E01"),
                                    ("source", .vStr "http://example.com/2")]])])])]

def seriesC3a : Series :=
  { key := "s1", title := "Show One", catalog := "tv", dir := none,
    episodes := [{ key := "E01", source := "http://example.com/1", encoding := "default",
                   format := none, dir := none }] }

def seriesC3b : Series :=
  { key := "s2", title := "Show Two", catalog := "nope", dir := none,
    episodes := [{ key := "E01", source := "http://example.com/2", encoding := "default",
                   format := none, dir := none }] }

def metaC3 : MetaConfig :=
  { tmp_dir := DEFAULT_TMP_DIR, aria2c_cmd := "aria2c", ffmpeg_cmd := "ffmpeg",
    ffprobe_cmd := "ffprobe", encoding_profiles := DEFAULT_ENCODING_PROFILES,
    catalogs := [("tv", { key := "tv", dir := "/media/tv" })] }

/-- The parse of `rawC3`: the dangling "nope" reference survives parsing. -/
def cfgC3 : Config := { meta := metaC3, series := [seriesC3a, seriesC3b] }

/-- Oracle under which s1/E01 is skipped (its base name is already in the
target directory). -/
def oracleSkipC3 : Oracle := { oracleAllOk with targetStems := ["Show One E01"] }

def epDirOverride : Episode := { epT with dir := some "/override/ep" }

def serDirOverride : Series := { serT with dir := some "/override/series" }

def epMissingProfile : Episode := { epT with encoding := "nonexistent" }

/-!
Helper lemmas.
-/

theorem dictGet_of_mem {α : Type} {k : String} {v : α} {es : List (String × α)}
    (hnd : dupFree (es.map Prod.fst) = true) (hmem : (k, v) ∈ es) :
    dictGet k es = some v := by
  induction es with
  | nil => cases hmem
  | cons kv rest ih =>
    obtain ⟨k2, v2⟩ := kv
    simp only [List.map_cons, dupFree, Bool.and_eq_true, Bool.not_eq_true'] at hnd
    rcases List.mem_cons.mp hmem with heq | hmem2
    · cases heq; simp [dictGet]
    · have hk : k2 ≠ k := by
        intro h
        subst h
        have := hnd.1
        simp at this
        exact this v hmem2
      simp [dictGet, hk, ih hnd.2 hmem2]

theorem dictSet_of_get {α : Type} {k : String} {v : α} : ∀ {es : List (String × α)},
    dictGet k es = some v → dictSet k v es = es := by
  intro es
  induction es with
  | nil => intro h; simp [dictGet] at h
  | cons kv rest ih =>
    obtain ⟨k2, v2⟩ := kv
    intro h
    by_cases hk : k2 = k
    · subst hk
      simp [dictGet] at h
      simp [dictSet, h]
    · simp only [dictGet, if_neg hk] at h
      simp [dictSet, hk, ih h]

theorem dictGet_append_of_none {α : Type} (k : String) (v : α) :
    ∀ tbl : List (String × α), dictGet k tbl = none →
    dictGet k (tbl ++ [(k, v)]) = some v := by
  intro tbl
  induction tbl with
  | nil => intro _; simp [dictGet]
  | cons kv rest ih =>
    obtain ⟨k2, v2⟩ := kv
    intro h
    by_cases hk : k2 = k
    · simp [dictGet, hk] at h
    · simp only [dictGet, if_neg hk] at h
      simp [dictGet, hk, ih h]

theorem wf_of_mem_wfEntries : ∀ {es : List (String × PyVal)}, wfEntries es = true →
    ∀ {k : String} {v : PyVal}, (k, v) ∈ es → wf v = true := by
  intro es
  induction es with
  | nil => intro _ k v hm; cases hm
  | cons kv rest ih =>
    intro h k v hm
    obtain ⟨k2, v2⟩ := kv
    simp only [wfEntries, Bool.and_eq_true] at h
    rcases List.mem_cons.mp hm with heq | hm2
    · cases heq; exact h.1
    · exact ih h.2 hm2

/-- Merging a source whose every entry already occurs verbatim in the
destination leaves the destination unchanged; the induction follows the
recursion of `_deep_merge_dict`, bounded by `n`. -/
theorem deepMergeDict_self_general : ∀ (n : Nat), ∀ (src des : List (String × PyVal)),
    sizeOf src < n →
    (∀ (k : String) (v : PyVal), (k, v) ∈ src → dictGet k des = some v) →
    (∀ (k : String) (v : PyVal), (k, v) ∈ src → wf v = true) →
    deepMergeDict src (.vDict des) = some (.vDict des) := by
  intro n
  induction n with
  | zero => intro src des h; omega
  | succ n ih =>
    intro src des hsize h1 h2
    match src with
    | [] => simp [deepMergeDict]
    | (k, v) :: rest =>
      have hkv := h1 k v (List.mem_cons_self _ _)
      have hwf := h2 k v (List.mem_cons_self _ _)
      have hrest1 : ∀ (k2 : String) (v2 : PyVal), (k2, v2) ∈ rest → dictGet k2 des = some v2 :=
        fun k2 v2 hm => h1 k2 v2 (List.mem_cons_of_mem _ hm)
      have hrest2 : ∀ (k2 : String) (v2 : PyVal), (k2, v2) ∈ rest → wf v2 = true :=
        fun k2 v2 hm => h2 k2 v2 (List.mem_cons_of_mem _ hm)
      have hsr : sizeOf rest < n := by
        simp only [List.cons.sizeOf_spec] at hsize
        omega
      cases v with
      | vDict sub =>
        have hs : sizeOf sub < n := by
          simp only [List.cons.sizeOf_spec, Prod.mk.sizeOf_spec, PyVal.vDict.sizeOf_spec] at hsize
          omega
        simp only [wf, Bool.and_eq_true] at hwf
        have hsub : deepMergeDict sub (.vDict sub) = some (.vDict sub) :=
          ih sub sub hs (fun k2 v2 hm => dictGet_of_mem hwf.1 hm)
            (fun k2 v2 hm => wf_of_mem_wfEntries hwf.2 hm)
        simp only [deepMergeDict, hkv, hsub, dictSet_of_get hkv]
        exact ih rest des hsr hrest1 hrest2
      | vNone =>
        simp only [deepMergeDict, hkv, dictSet_of_get hkv, ite_self]
        exact ih rest des hsr hrest1 hrest2
      | vBool b =>
        simp only [deepMergeDict, hkv, dictSet_of_get hkv, ite_self]
        exact ih rest des hsr hrest1 hrest2
      | vInt m =>
        simp only [deepMergeDict, hkv, dictSet_of_get hkv, ite_self]
        exact ih rest des hsr hrest1 hrest2
      | vStr str =>
        simp only [deepMergeDict, hkv, dictSet_of_get hkv, ite_self]
        exact ih rest des hsr hrest1 hrest2
      | vList xs =>
        simp only [deepMergeDict, hkv, dictSet_of_get hkv, ite_self]
        exact ih rest des hsr hrest1 hrest2

theorem isRmtreeEff_encodeEffect (a b : String) (c : Option String) (d : String) :
    isRmtreeEff (encodeEffect a b c d) = false := by
  unfold encodeEffect
  cases c with
  | none => rfl
  | some s => by_cases h : s = "" <;> simp [h, isRmtreeEff]

theorem verify_dur_100_100 : verify_encoded_video_duration 100 100 = .ok () := by
  norm_num [verify_encoded_video_duration, ratAbs, ratMax]

/-- `runEpisodes` records exactly the failed episodes, in order, and
attempts every episode. -/
theorem runEpisodes_spec (series : Series) (cat : Catalog) (meta : MetaConfig)
    (o : String → Oracle) : ∀ eps : List Episode,
    runEpisodes series cat meta o eps =
      (eps.filterMap (fun ep =>
         match (processEpisode ep series cat meta (o (series.key ++ "-" ++ ep.key))).outcome with
         | .failed msg => some (taskErrKey cat series ep, msg)
         | _ => none),
       eps.map (fun ep => series.key ++ "-" ++ ep.key)) := by
  intro eps
  induction eps with
  | nil => simp [runEpisodes]
  | cons ep rest ih =>
    simp only [runEpisodes, ih, List.filterMap_cons, List.map_cons]
    cases houtcome : (processEpisode ep series cat meta (o (series.key ++ "-" ++ ep.key))).outcome <;>
      simp [houtcome]

/-- When every series catalog resolves, `sync` returns normally with the
full failure map after attempting every episode of every series. -/
theorem syncGo_spec (meta : MetaConfig) (o : String → Oracle) : ∀ sers : List Series,
    (∀ s ∈ sers, (dictGet s.catalog meta.catalogs).isSome = true) →
    syncGo meta o sers = (.ok (failuresFor meta o sers), allTaskIds sers) := by
  intro sers
  induction sers with
  | nil => intro _; simp [syncGo, failuresFor, allTaskIds]
  | cons s rest ih =>
    intro hcat
    obtain ⟨cat, hc⟩ := Option.isSome_iff_exists.mp (hcat s (List.mem_cons_self _ _))
    have hrest := ih (fun s2 hm => hcat s2 (List.mem_cons_of_mem _ hm))
    simp only [syncGo, List.append_eq, hc, hrest, runEpisodes_spec, failuresFor, allTaskIds,
      List.map_cons, List.flatten_cons]

/-- The first series with an unresolvable catalog reference aborts `sync`
with a `KeyError` after all earlier series were attempted. -/
theorem syncGo_missing (meta : MetaConfig) (o : String → Oracle) :
    ∀ (pre : List Series) (bad : Series) (post : List Series),
    (∀ s ∈ pre, (dictGet s.catalog meta.catalogs).isSome = true) →
    dictGet bad.catalog meta.catalogs = none →
    syncGo meta o (pre ++ bad :: post) =
      (.error ("KeyError: " ++ bad.catalog), allTaskIds pre) := by
  intro pre
  induction pre with
  | nil =>
    intro bad post _ hbad
    simp [syncGo, hbad, allTaskIds]
  | cons s rest ih =>
    intro bad post hpre hbad
    obtain ⟨cat, hc⟩ := Option.isSome_iff_exists.mp (hpre s (List.mem_cons_self _ _))
    have hrest := ih bad post (fun s2 hm => hpre s2 (List.mem_cons_of_mem _ hm)) hbad
    simp only [List.cons_append, syncGo, List.append_eq, hc, hrest, runEpisodes_spec, allTaskIds,
      List.map_cons, List.flatten_cons]

/-!
Claims.
-/

/-- C1 (amended): when catalog references resolve, `sync` returns normally
with the failure map (one entry per failed episode) after attempting every
episode, and the process exit status is 0 regardless of whether the
failure map is empty — the code prints the failure report but never
signals a non-zero outcome. -/
theorem sync_reports_failures_but_exits_zero (config : Config) (o : String → Oracle)
    (hcat : ∀ s ∈ config.series, (dictGet s.catalog config.meta.catalogs).isSome = true) :
    sync config o = (.ok (failures config o), allTaskIds config.series)
  ∧ mainExitCode config o = 0 := by
  have h := syncGo_spec config.meta o config.series hcat
  refine ⟨h, ?_⟩
  simp [mainExitCode, sync, h]

theorem sync_reports_failures_but_exits_zero_witness :
    sync cfgT (fun _ => oracleFailDownload)
      = (.ok [("tv/s/e1", "RuntimeError: boom")], ["s-e1"])
  ∧ mainExitCode cfgT (fun _ => oracleFailDownload) = 0 := by
  have h := sync_reports_failures_but_exits_zero cfgT (fun _ => oracleFailDownload)
    (by intro s hs; simp only [cfgT, List.mem_singleton] at hs; subst hs; rfl)
  exact ⟨h.1.trans (by rfl), h.2⟩

/-- C1 counterexample: a batch with one failing episode yields a non-empty
failure map, yet the process exit status is 0 — refuting the claim that a
non-empty failure map produces a non-zero outcome. -/
theorem sync_exit_zero_on_failure_cex :
    (sync cfgT (fun _ => oracleFailDownload)).1 = .ok [("tv/s/e1", "RuntimeError: boom")]
  ∧ mainExitCode cfgT (fun _ => oracleFailDownload) = 0 :=
  ⟨rfl, rfl⟩

/-- C2 (amended): the per-task temporary directory tree is removed only
when the task completes every step successfully (`Outcome.done`); any
failure — including failures after the download step — and any skip ends
the task with no `rmtree` effect, because `process_episode` has no
try/finally around its step sequence. -/
theorem task_dir_removed_only_on_success (ep : Episode) (series : Series) (catalog : Catalog)
    (meta : MetaConfig) (o : Oracle) :
    ((processEpisode ep series catalog meta o).outcome = .done →
      (processEpisode ep series catalog meta o).trace.any isRmtreeEff = true)
  ∧ (∀ msg, (processEpisode ep series catalog meta o).outcome = .failed msg →
      (processEpisode ep series catalog meta o).trace.any isRmtreeEff = false)
  ∧ ((processEpisode ep series catalog meta o).outcome = .skipped →
      (processEpisode ep series catalog meta o).trace.any isRmtreeEff = false) := by
  obtain ⟨ts, dl, vd, enc, ve, sd, dd, pl, fi⟩ := o
  by_cases hskip : file_exists_with_basename ts (series.title ++ " " ++ ep.key) = true
  · simp [processEpisode, hskip, isRmtreeEff]
  · cases dl with
    | error e => simp [processEpisode, hskip, isRmtreeEff]
    | ok dn =>
      cases vd with
      | error e => simp [processEpisode, hskip, isRmtreeEff]
      | ok u1 =>
        cases enc with
        | error e =>
          simp [processEpisode, hskip, isRmtreeEff]
          exact isRmtreeEff_encodeEffect _ _ _ _
        | ok u2 =>
          cases ve with
          | error e =>
            simp [processEpisode, hskip, isRmtreeEff]
            exact isRmtreeEff_encodeEffect _ _ _ _
          | ok u3 =>
            cases sd with
            | error e =>
              simp [processEpisode, hskip, isRmtreeEff]
              exact isRmtreeEff_encodeEffect _ _ _ _
            | ok srcd =>
              cases dd with
              | error e =>
                simp [processEpisode, hskip, isRmtreeEff]
                exact isRmtreeEff_encodeEffect _ _ _ _
              | ok dstd =>
                cases hdur : verify_encoded_video_duration srcd dstd with
                | error e =>
                  simp [processEpisode, hskip, hdur, isRmtreeEff]
                  exact isRmtreeEff_encodeEffect _ _ _ _
                | ok u4 =>
                  cases pl with
                  | error e =>
                    simp [processEpisode, hskip, hdur, isRmtreeEff]
                    exact isRmtreeEff_encodeEffect _ _ _ _
                  | ok u5 =>
                    cases fi with
                    | true => simp [processEpisode, hskip, hdur, isRmtreeEff]
                    | false =>
                      simp [processEpisode, hskip, hdur, isRmtreeEff]
                      exact isRmtreeEff_encodeEffect _ _ _ _

theorem task_dir_removed_only_on_success_witness :
    (processEpisode epT serT catT metaT oracleAllOk).trace.any isRmtreeEff = true
  ∧ (processEpisode epT serT catT metaT oracleFailVerify).trace.any isRmtreeEff = false := by
  constructor
  · exact (task_dir_removed_only_on_success epT serT catT metaT oracleAllOk).1
      (by simp [processEpisode, epT, serT, catT, metaT, oracleAllOk, verify_dur_100_100,
                file_exists_with_basename, resolveTargetDir, profilesGet,
                DEFAULT_ENCODING_PROFILES, pyOrStr, suffixNoDot, pathStem, stemSuffix, pjoin,
                encodeEffect])
  · exact (task_dir_removed_only_on_success epT serT catT metaT oracleFailVerify).2.1
      "ValueError: Error verifying video" rfl

/-- C2 counterexample: a task that reaches the download step (the trace
contains the downloader invocation) and then fails at source verification
ends with no `rmtree` of its temporary directory tree — refuting the
claim that the tree is removed whether the task succeeds or fails. -/
theorem task_dir_left_on_failure_cex :
    (processEpisode epT serT catT metaT oracleFailVerify).outcome
      = .failed "ValueError: Error verifying video"
  ∧ (processEpisode epT serT catT metaT oracleFailVerify).trace.any isDownloadEff = true
  ∧ (processEpisode epT serT catT metaT oracleFailVerify).trace.any isRmtreeEff = false :=
  ⟨rfl, rfl, rfl⟩

/-- C3 (amended): `parse_config` performs no validation of catalog
references, so a config whose series references an unknown catalog key
parses successfully; the unresolved reference instead raises a `KeyError`
inside `sync` when that series is reached, aborting the remainder of the
run after the episodes of all earlier series have already been attempted. -/
theorem unknown_catalog_aborts_sync_after_prior_series (meta : MetaConfig) (o : String → Oracle)
    (pre : List Series) (bad : Series) (post : List Series)
    (hpre : ∀ s ∈ pre, (dictGet s.catalog meta.catalogs).isSome = true)
    (hbad : dictGet bad.catalog meta.catalogs = none) :
    sync { meta := meta, series := pre ++ bad :: post } o
      = (.error ("KeyError: " ++ bad.catalog), allTaskIds pre) :=
  syncGo_missing meta o pre bad post hpre hbad

theorem unknown_catalog_aborts_sync_after_prior_series_witness :
    sync cfgC3 (fun _ => oracleSkipC3) = (.error "KeyError: nope", ["s1-E01"]) := by
  have h := unknown_catalog_aborts_sync_after_prior_series metaC3 (fun _ => oracleSkipC3)
    [seriesC3a] seriesC3b []
    (by intro s hs; rw [List.mem_singleton] at hs; subst hs; rfl) rfl
  exact h.trans (by rfl)

/-- C3 counterexample: `rawC3` references the unknown catalog "nope", yet
`parse_config` succeeds on it, and the resulting `sync` run invokes the
first series' episode pipeline (task id s1-E01) before dying with the
uncaught `KeyError` — refuting the claim that the run aborts at parse
time before any episode processing. -/
theorem unknown_catalog_parse_ok_cex :
    parseConfig rawC3 = .ok cfgC3
  ∧ (sync cfgC3 (fun _ => oracleSkipC3)).1 = .error "KeyError: nope"
  ∧ (sync cfgC3 (fun _ => oracleSkipC3)).2 = ["s1-E01"] :=
  ⟨rfl, rfl, rfl⟩

/-- C4 (amended): with a source duration of 100 seconds, the
encoded-duration verification accepts durations within the 5.0-second
floor (e.g. 95.1 s) but rejects an encoded duration of 94.9 s — the
difference 5.1 s already exceeds max(5.0, 0.02 * 100) — and likewise
rejects 93.9 s. -/
theorem duration_tolerance_bounds :
    verify_encoded_video_duration 100 95.1 = .ok ()
  ∧ verify_encoded_video_duration 100 94.9
      = .error "ValueError: Bad encoded video: Duration mismatch"
  ∧ verify_encoded_video_duration 100 93.9
      = .error "ValueError: Bad encoded video: Duration mismatch" := by
  refine ⟨?_, ?_, ?_⟩ <;> norm_num [verify_encoded_video_duration, ratAbs, ratMax]

/-- C4 counterexample: at source duration 100 s the verification rejects
an encoded duration of 94.9 s (|100 − 94.9| = 5.1 > 5.0), refuting the
claim that 94.9 s is within the tolerance. -/
theorem duration_94_9_rejected_cex :
    verify_encoded_video_duration 100 94.9
      = .error "ValueError: Bad encoded video: Duration mismatch" := by
  norm_num [verify_encoded_video_duration, ratAbs, ratMax]

/-- C5: when every catalog reference resolves and exactly one episode's
pipeline fails, `sync` returns a failure map with exactly that one entry
(keyed `catalog/series/episode` with the error message) while still
attempting every episode of the batch in order. -/
theorem sync_isolates_single_failure (config : Config) (o : String → Oracle)
    (kk mm : String)
    (hcat : ∀ s ∈ config.series, (dictGet s.catalog config.meta.catalogs).isSome = true)
    (hone : failures config o = [(kk, mm)]) :
    (sync config o).1 = .ok [(kk, mm)]
  ∧ (sync config o).2 = allTaskIds config.series := by
  have h := syncGo_spec config.meta o config.series hcat
  rw [sync, h]
  exact ⟨by rw [← hone]; rfl, rfl⟩

theorem sync_isolates_single_failure_witness :
    failures cfg5 o5 = [("tv/s/e2", "RuntimeError: boom")]
  ∧ (sync cfg5 o5).1 = .ok [("tv/s/e2", "RuntimeError: boom")]
  ∧ (sync cfg5 o5).2 = ["s-e1", "s-e2", "s-e3"] := by
  have hone : failures cfg5 o5 = [("tv/s/e2", "RuntimeError: boom")] := by
    simp [failures, failuresFor, cfg5, ser3, metaT, catT, epT, ep2, ep3, o5, dictGet,
          processEpisode, oracleAllOk, oracleFailDownload, verify_dur_100_100,
          file_exists_with_basename, resolveTargetDir, profilesGet, DEFAULT_ENCODING_PROFILES,
          pyOrStr, suffixNoDot, pathStem, stemSuffix, pjoin, encodeEffect, taskErrKey]
  have h := sync_isolates_single_failure cfg5 o5 "tv/s/e2" "RuntimeError: boom"
    (by intro s hs; simp only [cfg5, List.mem_singleton] at hs; subst hs; rfl) hone
  exact ⟨hone, h.1, h.2.trans (by rfl)⟩

/-- C6 (amended): for a dict destination, the merge of a head entry copies
a non-mapping incoming value when the key is absent, overwrites when the
incoming value is truthy, and retains the destination value when falsy;
but when the incoming value is mapping-typed the code recurses on the
destination's existing value regardless of its type — both-mappings
recurse as expected, while an int existing value under a non-empty
incoming mapping raises a type error (`none`) instead of being
overwritten.  (String and list destination values instead undergo Python
membership tests in the recursion and need not raise; only the int case
is asserted here.) -/
theorem deep_merge_recursion_characterization
    (k : String) (vt vf : PyVal) (sub dsub rest d1 d2 d3 d4 d5 : List (String × PyVal)) (m : Int) :
    (isDictVal vt = false → dictGet k d1 = none →
      deepMergeDict ((k, vt) :: rest) (.vDict d1) = deepMergeDict rest (.vDict (d1 ++ [(k, vt)])))
  ∧ (isDictVal vt = false → truthy vt = true → (dictGet k d2).isSome = true →
      deepMergeDict ((k, vt) :: rest) (.vDict d2) = deepMergeDict rest (.vDict (dictSet k vt d2)))
  ∧ (isDictVal vf = false → truthy vf = false → (dictGet k d3).isSome = true →
      deepMergeDict ((k, vf) :: rest) (.vDict d3) = deepMergeDict rest (.vDict d3))
  ∧ (dictGet k d4 = some (.vDict dsub) →
      deepMergeDict ((k, .vDict sub) :: rest) (.vDict d4) =
        match deepMergeDict sub (.vDict dsub) with
        | some node2 => deepMergeDict rest (.vDict (dictSet k node2 d4))
        | none => none)
  ∧ (dictGet k d5 = some (.vInt m) → sub ≠ [] →
      deepMergeDict ((k, .vDict sub) :: rest) (.vDict d5) = none) := by
  refine ⟨?_, ?_, ?_, ?_, ?_⟩
  · intro hnd hget
    cases vt <;> simp_all [deepMergeDict, isDictVal]
  · intro hnd htv hget
    obtain ⟨w, hw⟩ := Option.isSome_iff_exists.mp hget
    cases vt <;> simp_all [deepMergeDict, isDictVal]
  · intro hnd htv hget
    obtain ⟨w, hw⟩ := Option.isSome_iff_exists.mp hget
    cases vf <;> simp_all [deepMergeDict, isDictVal]
  · intro hget
    simp only [deepMergeDict, hget]
  · intro hget hne
    obtain ⟨⟨k2, v2⟩, sub2, rfl⟩ := List.exists_cons_of_ne_nil hne
    have hinner : deepMergeDict ((k2, v2) :: sub2) (.vInt m) = none := by
      cases v2 <;> simp [deepMergeDict, pyContains]
    simp only [deepMergeDict, hget, hinner]

theorem deep_merge_recursion_characterization_witness :
    (deepMergeDict [("a", .vInt 7)] (.vDict []) = deepMergeDict [] (.vDict [("a", .vInt 7)]))
  ∧ (deepMergeDict [("a", .vInt 7)] (.vDict [("a", .vStr "x")])
      = deepMergeDict [] (.vDict (dictSet "a" (.vInt 7) [("a", .vStr "x")])))
  ∧ (deepMergeDict [("a", .vInt 0)] (.vDict [("a", .vStr "x")])
      = deepMergeDict [] (.vDict [("a", .vStr "x")]))
  ∧ (deepMergeDict [("a", .vDict [("b", .vInt 1)])] (.vDict [("a", .vDict [])])
      = match deepMergeDict [("b", .vInt 1)] (.vDict []) with
        | some node2 => deepMergeDict [] (.vDict (dictSet "a" node2 [("a", .vDict [])]))
        | none => none)
  ∧ (deepMergeDict [("a", .vDict [("b", .vInt 1)])] (.vDict [("a", .vInt 5)]) = none) := by
  have h := deep_merge_recursion_characterization "a" (.vInt 7) (.vInt 0)
    [("b", .vInt 1)] [] [] [] [("a", .vStr "x")] [("a", .vStr "x")] [("a", .vDict [])]
    [("a", .vInt 5)] 5
  exact ⟨h.1 rfl rfl, h.2.1 rfl rfl rfl, h.2.2.1 rfl rfl rfl, h.2.2.2.1 rfl,
    h.2.2.2.2 rfl (by exact List.cons_ne_nil _ _)⟩

/-- C6 counterexample: merging a source that maps key a to the dict (b: 1)
into a destination that maps key a to the int 5: the claim (and the spec
algorithm `specDeepMerge`, which overwrites because the destination value
is not a mapping and the incoming value is truthy) predicts that key a
ends up mapped to the dict (b: 1), but `_deep_merge_dict` recurses into
the int destination value and raises a type error (`none`). -/
theorem deep_merge_spec_divergence_cex :
    deepMergeDict [("a", .vDict [("b", .vInt 1)])] (.vDict [("a", .vInt 5)]) = none
  ∧ specDeepMerge [("a", .vDict [("b", .vInt 1)])] [("a", .vInt 5)]
      = [("a", .vDict [("b", .vInt 1)])] := by
  constructor
  · simp [deepMergeDict, dictGet, pyContains, truthy]
  · simp [specDeepMerge, dictGet, dictSet, truthy]

/-- C7: when the target directory already holds a file whose stem equals
`series.title ++ " " ++ ep.key`, the pipeline ends in the `Skipped`
terminal state right after the existence check, with no downloader and no
encoder invocation in its trace, and the outcome is not a failure. -/
theorem skip_check_skips_pipeline (ep : Episode) (series : Series) (catalog : Catalog)
    (meta : MetaConfig) (o : Oracle)
    (h : file_exists_with_basename o.targetStems (series.title ++ " " ++ ep.key) = true) :
    processEpisode ep series catalog meta o =
      { outcome := .skipped, trace := [Eff.ensureDir (resolveTargetDir ep series catalog)] }
  ∧ (processEpisode ep series catalog meta o).trace.any isDownloadEff = false
  ∧ (processEpisode ep series catalog meta o).trace.any isEncoderEff = false
  ∧ ∀ msg, (processEpisode ep series catalog meta o).outcome ≠ .failed msg := by
  have hr : processEpisode ep series catalog meta o =
      { outcome := .skipped, trace := [Eff.ensureDir (resolveTargetDir ep series catalog)] } := by
    unfold processEpisode
    rw [if_pos h]
  refine ⟨hr, ?_, ?_, ?_⟩ <;> simp [hr, isDownloadEff, isEncoderEff]

theorem skip_check_skips_pipeline_witness :
    processEpisode epT serT catT metaT oracleSkipT
      = { outcome := .skipped, trace := [Eff.ensureDir "/media/tv/Show"] }
  ∧ (processEpisode epT serT catT metaT oracleSkipT).trace.any isDownloadEff = false
  ∧ (processEpisode epT serT catT metaT oracleSkipT).trace.any isEncoderEff = false
  ∧ ∀ msg, (processEpisode epT serT catT metaT oracleSkipT).outcome ≠ .failed msg := by
  have h := skip_check_skips_pipeline epT serT catT metaT oracleSkipT rfl
  exact ⟨h.1.trans (by rfl), h.2.1, h.2.2.1, h.2.2.2⟩

/-- C8: the resolved target directory is the episode dir override when
set, else the series dir override when set, else catalog.dir joined with
series.title. -/
theorem target_dir_precedence (ep : Episode) (series : Series) (catalog : Catalog)
    (e s : String) :
    (ep.dir = some e → resolveTargetDir ep series catalog = e)
  ∧ (ep.dir = none → series.dir = some s → resolveTargetDir ep series catalog = s)
  ∧ (ep.dir = none → series.dir = none →
      resolveTargetDir ep series catalog = pjoin catalog.dir series.title) := by
  refine ⟨?_, ?_, ?_⟩
  · intro h; simp [resolveTargetDir, h]
  · intro h1 h2; simp [resolveTargetDir, h1, h2]
  · intro h1 h2; simp [resolveTargetDir, h1, h2]

theorem target_dir_precedence_witness :
    resolveTargetDir epDirOverride serDirOverride catT = "/override/ep"
  ∧ resolveTargetDir epT serDirOverride catT = "/override/series"
  ∧ resolveTargetDir epT serT catT = pjoin catT.dir serT.title :=
  ⟨(target_dir_precedence epDirOverride serDirOverride catT "/override/ep"
      "/override/series").1 rfl,
   (target_dir_precedence epT serDirOverride catT "/override/ep" "/override/series").2.1 rfl rfl,
   (target_dir_precedence epT serT catT "/override/ep" "/override/series").2.2 rfl rfl⟩

/-- C9: the deep merge is idempotent — merging a configuration tree (a
dict with recursively duplicate-free keys, as any Python dict) into
itself succeeds and yields the same tree. -/
theorem deep_merge_idempotent (es : List (String × PyVal)) (h : wf (.vDict es) = true) :
    deepMergeDict es (.vDict es) = some (.vDict es) := by
  simp only [wf, Bool.and_eq_true] at h
  exact deepMergeDict_self_general (sizeOf es + 1) es es (by omega)
    (fun k v hm => dictGet_of_mem h.1 hm)
    (fun k v hm => wf_of_mem_wfEntries h.2 hm)

theorem deep_merge_idempotent_witness :
    wf (.vDict mergeExampleA) = true ∧
    deepMergeDict mergeExampleA (.vDict mergeExampleA) = some (.vDict mergeExampleA) :=
  ⟨by simp [wf, wfEntries, dupFree, mergeExampleA],
   deep_merge_idempotent mergeExampleA (by simp [wf, wfEntries, dupFree, mergeExampleA])⟩

/-- C10: an encoding profile name absent from the profile table raises no
error — the `dict.get` lookup yields `None`, the pipeline behaves exactly
as if the profile were explicitly configured as `None` ("original"), and
the encode step degrades to a file copy with no encoder invocation in the
trace. -/
theorem missing_profile_degrades_to_copy (ep : Episode) (series : Series) (catalog : Catalog)
    (meta : MetaConfig) (o : Oracle)
    (h : dictGet ep.encoding meta.encoding_profiles = none) :
    profilesGet meta.encoding_profiles ep.encoding = none
  ∧ processEpisode ep series catalog meta o =
      processEpisode ep series catalog
        { meta with encoding_profiles := meta.encoding_profiles ++ [(ep.encoding, none)] } o
  ∧ (processEpisode ep series catalog meta o).trace.any isEncoderEff = false := by
  have h1 : profilesGet meta.encoding_profiles ep.encoding = none := by
    simp [profilesGet, h]
  have h2 : profilesGet (meta.encoding_profiles ++ [(ep.encoding, none)]) ep.encoding = none := by
    simp [profilesGet, dictGet_append_of_none ep.encoding none meta.encoding_profiles h]
  refine ⟨h1, ?_, ?_⟩
  · simp only [processEpisode, h1, h2]
  · obtain ⟨ts, dl, vd, enc, ve, sd, dd, pl, fi⟩ := o
    by_cases hskip : file_exists_with_basename ts (series.title ++ " " ++ ep.key) = true
    · simp [processEpisode, hskip, isEncoderEff]
    · cases dl with
      | error e => simp [processEpisode, hskip, isEncoderEff]
      | ok dn =>
        cases vd with
        | error e => simp [processEpisode, hskip, isEncoderEff]
        | ok u1 =>
          cases enc with
          | error e => simp [processEpisode, hskip, h1, isEncoderEff, encodeEffect]
          | ok u2 =>
            cases ve with
            | error e => simp [processEpisode, hskip, h1, isEncoderEff, encodeEffect]
            | ok u3 =>
              cases sd with
              | error e => simp [processEpisode, hskip, h1, isEncoderEff, encodeEffect]
              | ok srcd =>
                cases dd with
                | error e => simp [processEpisode, hskip, h1, isEncoderEff, encodeEffect]
                | ok dstd =>
                  cases hdur : verify_encoded_video_duration srcd dstd with
                  | error e => simp [processEpisode, hskip, hdur, h1, isEncoderEff, encodeEffect]
                  | ok u4 =>
                    cases pl with
                    | error e => simp [processEpisode, hskip, hdur, h1, isEncoderEff, encodeEffect]
                    | ok u5 =>
                      cases fi with
                      | true =>
                        simp [processEpisode, hskip, hdur, h1, isEncoderEff, encodeEffect]
                      | false =>
                        simp [processEpisode, hskip, hdur, h1, isEncoderEff, encodeEffect]

theorem missing_profile_degrades_to_copy_witness :
    profilesGet metaT.encoding_profiles epMissingProfile.encoding = none
  ∧ processEpisode epMissingProfile serT catT metaT oracleAllOk =
      processEpisode epMissingProfile serT catT
        { metaT with encoding_profiles := metaT.encoding_profiles ++ [("nonexistent", none)] }
        oracleAllOk
  ∧ (processEpisode epMissingProfile serT catT metaT oracleAllOk).trace.any isEncoderEff
      = false := by
  have h := missing_profile_degrades_to_copy epMissingProfile serT catT metaT oracleAllOk rfl
  exact ⟨h.1, h.2.1, h.2.2⟩

end Bruniceps
